import Mathlib

/-!
# Verification of the turnovers spreadsheet-assembly pipeline

Shallow embedding of the document-assembly pipeline of the `turnovers`
repository (`src/lib/sheets.js`, `src/lib/driveUpload.js`,
`src/lib/anthropic.js`, and the table-editor component), together with
proofs of the specified properties.

Modelling conventions:
* JavaScript numeric field values are modelled as `Option Int`: `some n` is a
  value that `Number(...)` coerces to the number `n`, `none` is a value that
  coerces to `NaN` (absent / non-numeric).  The claims under study do not
  depend on fractional values, so integers suffice.
* Strings are Lean `String`s; JavaScript `null`/`undefined` string inputs are
  modelled with `Option String` exactly where the source code distinguishes
  them (`sanitizeSheetName`, the work-order number fallback).
* The `localeCompare`-based comparator used for sorting is modelled by the
  code-point linear order on `String`; any stable sort by a total preorder is
  a faithful model of `Array.prototype.sort` (stable per the ECMAScript
  specification) with a consistent comparator.
-/

namespace Turnovers

/-- A spreadsheet cell value: either a string or a number
(`src/lib/sheets.js` writes both kinds into value ranges). -/
inductive Cell where
  | str (v : String) : Cell
  | num (v : Int) : Cell
deriving DecidableEq, Inhabited

/-- One extracted work item as consumed by `writeToSheet`
(`src/lib/sheets.js`).  The numeric fields `multiplier`, `pricePerUnit`
and `total` arrive from dynamic JSON, hence `Option Int`. -/
structure WorkItem where
  category : String
  item : String
  description : String
  unit : String
  multiplier : Option Int
  pricePerUnit : Option Int
  total : Option Int
  notes : String
deriving DecidableEq, Inhabited

/-- `safeNumber` from `src/lib/sheets.js` lines 80-83:
`Number(value)` with `NaN` mapped to `0`. -/
def safeNumber : Option Int → Int
  | some n => n
  | none => 0

/-- JavaScript `a || b` on numbers: `a` unless it is falsy (`0`/`NaN`;
`NaN` has already been collapsed to `0` by `safeNumber`). -/
def jsOr (a b : Int) : Int := if a = 0 then b else a

/-- JavaScript `a || b` where `a` is the raw `Number(...)` result
(`none` = `NaN`, which is falsy). -/
def jsOrNum (a b : Option Int) : Option Int :=
  match a with
  | some n => if n = 0 then b else some n
  | none => b

/-- JavaScript multiplication where `NaN` (`none`) is absorbing. -/
def jsMul : Option Int → Option Int → Option Int
  | some a, some b => some (a * b)
  | _, _ => none

/-- The total written for one table row, `src/lib/sheets.js` line 312:
`safeNumber(item.total) || (amount * multiplier * pricePerUnit)` with
`amount = safeNumber(item.multiplier)` and `multiplier = 1`. -/
def rowTotal (it : WorkItem) : Int :=
  jsOr (safeNumber it.total) (safeNumber it.multiplier * 1 * safeNumber it.pricePerUnit)

/-- The grand total, `src/lib/sheets.js` lines 328-330:
`sortedWorkItems.reduce((sum, item) => sum + (safeNumber(item.total) ||
(safeNumber(item.multiplier) * safeNumber(item.pricePerUnit))), 0)`. -/
def grandTotal (items : List WorkItem) : Int :=
  items.foldl (fun sum it => sum + jsOr (safeNumber it.total) (safeNumber it.multiplier * safeNumber it.pricePerUnit)) 0

/-- One written table row, `src/lib/sheets.js` lines 308-325:
`[category, item, description, unit, amount, multiplier=1, pricePerUnit, total, notes]`. -/
def workItemRow (it : WorkItem) : List Cell :=
  [ .str it.category, .str it.item, .str it.description, .str it.unit,
    .num (safeNumber it.multiplier), .num 1, .num (safeNumber it.pricePerUnit),
    .num (rowTotal it), .str it.notes ]

/-- Code-point lexicographic order on character lists, the model of the
string collation used by `localeCompare` in the work-item comparator. -/
def charListLE : List Char → List Char → Bool
  | [], _ => true
  | _ :: _, [] => false
  | a :: as, b :: bs => if a = b then charListLE as bs else decide (a < b)

/-- Order on strings induced by `charListLE`. -/
def strLE (a b : String) : Bool := charListLE a.data b.data

/-- The comparator used by the work-item sort, `src/lib/sheets.js` lines
300-302 (`safeString(a.category).localeCompare(safeString(b.category))`),
modelled by the code-point order on the category strings. -/
def catRel (a b : WorkItem) : Prop := strLE a.category b.category = true

instance : DecidableRel catRel := fun a b => instDecidableEqBool (strLE a.category b.category) true

/-- `sortedWorkItems`, `src/lib/sheets.js` lines 300-302: stable sort of the
work items by category (`Array.prototype.sort` is stable per the ECMAScript
specification; any stable sort by the same comparator computes the same
list, so insertion sort is a faithful model). -/
def sortedWorkItems (items : List WorkItem) : List WorkItem :=
  items.insertionSort catRel

/-- The table rows in the order they are written (`workItemRows`,
`src/lib/sheets.js` lines 308-325). -/
def workItemRows (items : List WorkItem) : List (List Cell) :=
  (sortedWorkItems items).map workItemRow

/-- The table header row, `src/lib/sheets.js` line 305. -/
def headersRow : List Cell :=
  [ .str "Category", .str "Item", .str "Description", .str "Unit",
    .str "Amount", .str "Multiplier", .str "Price Per Unit", .str "Total", .str "Notes" ]

/-- The TOTAL row, `src/lib/sheets.js` line 333. -/
def totalRowCells (items : List WorkItem) : List Cell :=
  [ .str "", .str "", .str "", .str "", .str "", .str "",
    .str "TOTAL:", .num (grandTotal items), .str "" ]

/-- 1-based row of the table header (`HEADER_ROW`, `src/lib/sheets.js` line 292). -/
def HEADER_ROW : Nat := 7

/-- First data row (`dataStartRow`, `src/lib/sheets.js` line 336). -/
def dataStartRow : Nat := HEADER_ROW + 1

/-- Last data row (`dataEndRow`, `src/lib/sheets.js` line 337). -/
def dataEndRow (items : List WorkItem) : Nat :=
  dataStartRow + (workItemRows items).length - 1

/-- Row of the TOTAL row (`totalRowNum`, `src/lib/sheets.js` line 338). -/
def totalRowNum (items : List WorkItem) : Nat :=
  if (workItemRows items).length > 0 then dataEndRow items + 1 else HEADER_ROW + 1

/-- A contiguous block of rows written in one `values.batchUpdate` entry. -/
structure ValueRange where
  firstRow : Nat
  lastRow : Nat
  values : List (List Cell)
deriving DecidableEq

/-- `tableData`, `src/lib/sheets.js` lines 341-355: header range, data range
(only when there are data rows), TOTAL range. -/
def tableData (items : List WorkItem) : List ValueRange :=
  [⟨HEADER_ROW, HEADER_ROW, [headersRow]⟩]
    ++ (if (workItemRows items).length > 0 then
          [⟨dataStartRow, dataEndRow items, workItemRows items⟩]
        else [])
    ++ [⟨totalRowNum items, totalRowNum items, [totalRowCells items]⟩]

/-- 0-indexed header row (`HEADER_ROW_IDX`, `src/lib/sheets.js` line 293). -/
def HEADER_ROW_IDX : Nat := HEADER_ROW - 1

/-- The category merge-detection loop of `src/lib/sheets.js` lines 366-395,
operating on the sorted category column.  State: `currentCategory`,
`startIdx` (start of the open run) and `i` (current index); the remaining
categories are the list argument.  The `[]` case is the sentinel iteration
`i == sortedWorkItems.length` where `itemCategory` is `null`, which differs
from every string category and therefore closes the final run.  Emitted
pairs are `(startRowIndex, endRowIndex)` of the merge range
(`HEADER_ROW_IDX + 1 + startIdx`, `HEADER_ROW_IDX + 1 + i`). -/
def mergeLoop (currentCategory : String) (startIdx i : Nat) :
    List String → List (Nat × Nat)
  | [] =>
      if i - startIdx > 1 then
        [(HEADER_ROW_IDX + 1 + startIdx, HEADER_ROW_IDX + 1 + i)]
      else []
  | c :: rest =>
      if c ≠ currentCategory then
        (if i - startIdx > 1 then
          [(HEADER_ROW_IDX + 1 + startIdx, HEADER_ROW_IDX + 1 + i)]
         else [])
          ++ mergeLoop c i (i + 1) rest
      else mergeLoop currentCategory startIdx (i + 1) rest

/-- `categoryMerges`, `src/lib/sheets.js` lines 366-395, as a function of the
sorted category column. -/
def categoryMerges : List String → List (Nat × Nat)
  | [] => []
  | c :: rest => mergeLoop c 0 1 rest

/-- Prepend `k` occurrences of `a` to a run-length encoding, fusing with the
first run when its value is also `a`. -/
def consRun (a : String) (k : Nat) : List (String × Nat) → List (String × Nat)
  | [] => [(a, k)]
  | (d, n) :: gs => if a = d then (d, n + k) :: gs else (a, k) :: (d, n) :: gs

/-- Run-length encoding of a list: the maximal runs of consecutive equal
values, as `(value, length)` pairs.  Reference notion of "maximal run" for
the merge-detection correctness statement. -/
def runs : List String → List (String × Nat)
  | [] => []
  | c :: rest => consRun c 1 (runs rest)

/-- The merge ranges a run-length encoding ought to produce: starting at row
offset `pos`, one merge per run longer than one row, none for single rows. -/
def mergesOfRuns (pos : Nat) : List (String × Nat) → List (Nat × Nat)
  | [] => []
  | (_, n) :: rs =>
      (if n > 1 then
        [(HEADER_ROW_IDX + 1 + pos, HEADER_ROW_IDX + 1 + (pos + n))]
       else [])
        ++ mergesOfRuns (pos + n) rs

/-- Usable page height in pixels (`PAGE_HEIGHT_PX`, `src/lib/sheets.js`
line 593). -/
def PAGE_HEIGHT_PX : Nat := 684

/-- Estimated pixel height of the fixed content above the work-item table
(`HEADER_HEIGHT`, `src/lib/sheets.js` line 606). -/
def HEADER_HEIGHT : Nat := 42 + 42 + 21 + 80 + 21 + 315 + 21

/-- `WORK_ITEM_ROW_HEIGHT`, `src/lib/sheets.js` line 607. -/
def WORK_ITEM_ROW_HEIGHT : Nat := 25

/-- `TOTAL_ROW_HEIGHT`, `src/lib/sheets.js` line 608. -/
def TOTAL_ROW_HEIGHT : Nat := 25

/-- `estimatedContentHeight`, `src/lib/sheets.js` line 611. -/
def estimatedContentHeight (workItemCount : Nat) : Nat :=
  HEADER_HEIGHT + workItemCount * WORK_ITEM_ROW_HEIGHT + TOTAL_ROW_HEIGHT

/-- The page-break spacer computation, `src/lib/sheets.js` lines 614-627:
`used = estimatedContentHeight % PAGE_HEIGHT_PX`,
`spacer = PAGE_HEIGHT_PX - used + 20` (the branch at lines 621-624 re-assigns
the identical expression), clamped below by 50.  Parameterised by the page
height to state the property for all `H > 0`. -/
def pageBreakSpacer (estimatedHeight pageHeight : Nat) : Nat :=
  let usedOnPage1 := estimatedHeight % pageHeight
  max (pageHeight - usedOnPage1 + 20) 50

/-- One raw photo passed to `uploadPhotosToDrive`
(`src/lib/driveUpload.js`): data URL, file name, caption. -/
structure Photo where
  url : String
  name : String
  caption : String
deriving DecidableEq, Inhabited

/-- A successful upload record (`src/lib/driveUpload.js` lines 262-268). -/
structure UploadedPhoto where
  fileId : String
  directUrl : String
  fileName : String
  originalName : String
  caption : String
deriving DecidableEq, Inhabited

/-- One entry of the batch result (`src/lib/driveUpload.js` lines 262-281):
either a success record or the error record `{fileName: photo.name, error}`. -/
inductive UploadResult where
  | ok (p : UploadedPhoto)
  | err (fileName : String) (message : String)
deriving DecidableEq, Inhabited

/-- Decimal digit character. -/
def digitChar (n : Nat) : Char := Char.ofNat (48 + n)

/-- Fuel-indexed decimal rendering (structural, so that concrete witnesses
evaluate inside the kernel). -/
def natCharsAux : Nat → Nat → List Char
  | 0, _ => []
  | fuel + 1, n =>
      if n < 10 then [digitChar n]
      else natCharsAux fuel (n / 10) ++ [digitChar (n % 10)]

/-- Decimal rendering of a natural number, the model of JavaScript
`String(n)` / template interpolation of a number. -/
def natChars (n : Nat) : List Char := natCharsAux (n + 1) n

/-- JavaScript `s.padStart(2, '0')`. -/
def padStart2 (cs : List Char) : List Char :=
  List.replicate (2 - cs.length) '0' ++ cs

/-- The segment after the last dot (the whole list when there is no dot):
JavaScript `name.split('.').pop()`. -/
def lastDotSegment (cs : List Char) : List Char :=
  ((cs.reverse.takeWhile fun c => c ≠ '.').reverse)

/-- `photo.name?.split('.').pop() || 'jpg'`
(`src/lib/driveUpload.js` line 212). -/
def photoExtension (name : String) : List Char :=
  let seg := lastDotSegment name.data
  if seg.isEmpty then "jpg".data else seg

/-- `photo.name?.replace(/\.[^/.]+$/, '') || 'photo'`
(`src/lib/driveUpload.js` line 213): strips a final `.ext` whose `ext` is
nonempty and contains no `/` or `.`. -/
def photoBaseName (name : String) : List Char :=
  let cs := name.data
  let seg := lastDotSegment cs
  let stripped :=
    if seg.length < cs.length && !seg.isEmpty && !seg.contains '/' then
      cs.take (cs.length - seg.length - 1)
    else cs
  if stripped.isEmpty then "photo".data else stripped

/-- The generated Drive file name (`src/lib/driveUpload.js` line 214):
`${workOrderNumber}_${String(i+1).padStart(2,'0')}_${baseName}.${extension}`. -/
def photoFileName (workOrderNumber : String) (i : Nat) (name : String) : String :=
  String.mk (workOrderNumber.data
    ++ ('_' :: padStart2 (natChars (i + 1)))
    ++ ('_' :: photoBaseName name)
    ++ ('.' :: photoExtension name))

/-- URL stem for direct image embedding (`src/lib/driveUpload.js` line 260). -/
def DRIVE_URL_STEM : String := "https://drive.google.com/uc?export=view&id="

/-- One iteration of the upload loop (`src/lib/driveUpload.js` lines
210-282).  `outcome` models the effectful Drive interaction for this photo:
`.ok fileId` when decoding, `drive.files.create` and the permission grant
all succeed within the timeout, `.error message` when anything inside the
`try` block throws.  Either way exactly one record is pushed. -/
def uploadOne (workOrderNumber : String) (i : Nat) (photo : Photo)
    (outcome : Except String String) : UploadResult :=
  match outcome with
  | .ok fileId =>
      .ok { fileId := fileId
            directUrl := DRIVE_URL_STEM ++ fileId
            fileName := photoFileName workOrderNumber i photo.name
            originalName := photo.name
            caption := photo.caption }
  | .error msg => .err photo.name msg

/-- The sequential upload loop (`src/lib/driveUpload.js` lines 198-283),
starting at index `i`. -/
def uploadLoop (outcome : Nat → Photo → Except String String)
    (workOrderNumber : String) : Nat → List Photo → List UploadResult
  | _, [] => []
  | i, p :: rest =>
      uploadOne workOrderNumber i p (outcome i p)
        :: uploadLoop outcome workOrderNumber (i + 1) rest

/-- `uploadPhotosToDrive`, `src/lib/driveUpload.js` lines 177-291:
empty input returns `[]` (line 178), otherwise every photo is processed in
order with per-photo error capture. -/
def uploadPhotosToDrive (outcome : Nat → Photo → Except String String)
    (photos : List Photo) (workOrderNumber : String) : List UploadResult :=
  if photos.isEmpty then [] else uploadLoop outcome workOrderNumber 0 photos

/-- `successfulPhotos`, `src/lib/sheets.js` line 581:
`photoResults.filter(p => !p.error && p.directUrl)`. -/
def successfulPhotos (photoResults : List UploadResult) : List UploadedPhoto :=
  photoResults.filterMap fun r =>
    match r with
    | .ok p => if p.directUrl ≠ "" then some p else none
    | .err _ _ => none

/-- The per-photo gallery placement loop (`src/lib/sheets.js` lines
723-867): each successful photo occupies `(photoRow, notesRow, directUrl)`
with `notesRow = photoRow + 1`, and `currentRow` advances by 2. -/
def photoBlocks (currentRow : Nat) : List UploadedPhoto → List (Nat × Nat × String)
  | [] => []
  | p :: rest => (currentRow, currentRow + 1, p.directUrl) :: photoBlocks (currentRow + 2) rest

/-- The photo-gallery region of the layout: spacer row, spacer height,
gallery header row and the photo/notes blocks. -/
structure GalleryPlan where
  spacerRow : Nat
  spacerHeight : Nat
  headerRow : Nat
  blocks : List (Nat × Nat × String)
deriving DecidableEq

/-- The gallery section of `writeToSheet` (`src/lib/sheets.js` lines
578-872): emitted only when `photoResults.length > 0` and at least one
upload succeeded; the spacer row is `totalRowNum + 2`, the gallery header
row follows it, photos start one row later. -/
def galleryPlan (photoResults : List UploadResult)
    (totalRow workItemCount : Nat) : Option GalleryPlan :=
  if photoResults.length > 0 then
    let okPhotos := successfulPhotos photoResults
    if okPhotos.length > 0 then
      let spacer := pageBreakSpacer (estimatedContentHeight workItemCount) PAGE_HEIGHT_PX
      let pageBreakRow := totalRow + 2
      let headerRow := pageBreakRow + 1
      some ⟨pageBreakRow, spacer, headerRow, photoBlocks (headerRow + 1) okPhotos⟩
    else none
  else none

/-- `photoGalleryEndRow`, `src/lib/sheets.js` lines 578 and 869: stays at
the TOTAL row when no gallery is emitted, otherwise `currentRow - 1` after
the photo loop. -/
def photoGalleryEndRow (photoResults : List UploadResult)
    (totalRow workItemCount : Nat) : Nat :=
  match galleryPlan photoResults totalRow workItemCount with
  | none => totalRow
  | some g => g.headerRow + 2 * g.blocks.length

/-- One entry of the static pricing catalog (`src/lib/anthropic.js`);
`materialsCost` is `Option Bool` because the field is absent from many
catalog literals and the source tests it with `=== true`. -/
structure CatalogEntry where
  item : String
  description : String
  unit : String
  pricePerUnit : Int
  materialsCost : Option Bool
deriving DecidableEq, Inhabited

/-- The catalog shape: category name to entry list
(`PRICING_CATALOG`, `src/lib/anthropic.js`). -/
abbrev Catalog := List (String × List CatalogEntry)

/-- `findPricing`, `src/lib/anthropic.js` lines 289-296: `null` when the
category is absent, otherwise the first entry with the given item name whose
description matches (a falsy `description` argument matches anything). -/
def findPricing (catalog : Catalog) (category item description : String) :
    Option CatalogEntry :=
  match catalog.lookup category with
  | none => none
  | some categoryItems =>
      categoryItems.find? fun i =>
        i.item == item && (description == "" || i.description == description)

/-- `getDefaultPrice`, `src/lib/anthropic.js` lines 301-304. -/
def getDefaultPrice (catalog : Catalog) (category item description : String) : Int :=
  match findPricing catalog category item description with
  | some pricing => pricing.pricePerUnit
  | none => 0

/-- `requiresMaterialsCost`, `src/lib/anthropic.js` lines 309-312. -/
def requiresMaterialsCost (catalog : Catalog) (category item description : String) : Bool :=
  match findPricing catalog category item description with
  | some pricing => pricing.materialsCost == some true
  | none => false

/-- The validity filter of `handleSave` (`src/unnamed/part_005` lines
80-82): `item.category && item.item && item.multiplier > 0`. -/
def validItemFilter (it : WorkItem) : Bool :=
  it.category ≠ "" && it.item ≠ "" && decide (0 < safeNumber it.multiplier)

/-- The normalisation map of `handleSave` (`src/unnamed/part_005` lines
82-88): `multiplier: Number(item.multiplier) || 0`,
`pricePerUnit: Number(item.pricePerUnit) || 0`,
`total: Number(item.total) || (Number(item.multiplier) * Number(item.pricePerUnit))`. -/
def normalizeItem (it : WorkItem) : WorkItem :=
  { it with
    multiplier := jsOrNum it.multiplier (some 0)
    pricePerUnit := jsOrNum it.pricePerUnit (some 0)
    total := jsOrNum it.total (jsMul it.multiplier it.pricePerUnit) }

/-- `validItems` in `handleSave` (`src/unnamed/part_005` lines 79-88). -/
def validItems (editedItems : List WorkItem) : List WorkItem :=
  (editedItems.filter validItemFilter).map normalizeItem

/-- The characters replaced by `sanitizeSheetName`
(`src/lib/sheets.js` line 63, regex `/['*?:/\\[\]]/g`):
apostrophe, `*`, `?`, `:`, `/`, backslash, `[`, `]`. -/
def invalidSheetNameChars : List Char :=
  [Char.ofNat 39, '*', '?', ':', '/', Char.ofNat 92, '[', ']']

/-- JavaScript `String.prototype.trim` whitespace test (restricted to the
common ASCII whitespace characters). -/
def isJsWhitespace (c : Char) : Bool :=
  c = ' ' || c = Char.ofNat 9 || c = Char.ofNat 10 || c = Char.ofNat 13
    || c = Char.ofNat 11 || c = Char.ofNat 12

/-- JavaScript `s.trim()`. -/
def jsTrim (cs : List Char) : List Char :=
  ((cs.dropWhile isJsWhitespace).reverse.dropWhile isJsWhitespace).reverse

/-- `name.replace(/['*?:/\\[\]]/g, '-')` (`src/lib/sheets.js` line 63). -/
def replaceInvalidChars (cs : List Char) : List Char :=
  cs.map fun c => if invalidSheetNameChars.contains c then '-' else c

/-- The timestamp-derived fallback name `` `WO-${Date.now()}` ``
(`src/lib/sheets.js` lines 60 and 71); `now` models `Date.now()`. -/
def woDefault (now : Nat) : String :=
  String.mk ('W' :: 'O' :: '-' :: natChars now)

/-- `sanitizeSheetName`, `src/lib/sheets.js` lines 58-75.  `none` models a
missing or non-string input (the `typeof name !== 'string'` branch). -/
def sanitizeSheetName (name : Option String) (now : Nat) : String :=
  match name with
  | none => woDefault now
  | some s =>
      if s = "" then woDefault now
      else
        let sanitized := jsTrim (replaceInvalidChars s.data)
        let sanitized := if sanitized.length > 100 then sanitized.take 100 else sanitized
        if sanitized.isEmpty then woDefault now else String.mk sanitized

/-- Modelled from the spec's words for the refutation of the "removes
characters" reading: the identifier with the invalid characters deleted. -/
def removeInvalidChars (s : String) : String :=
  String.mk (s.data.filter fun c => !invalidSheetNameChars.contains c)

/-- The per-submission input of `writeToSheet` (`src/lib/sheets.js` lines
111-131): header fields, scope text, resolved asset outcomes and work items.
`photoResults` carries the per-photo upload outcomes so that the rendered
document is a pure function of this record. -/
structure Submission where
  workOrderNumber : Option String
  unitNumber : String
  address : String
  unitSquareFeet : String
  unitLayout : String
  englishScope : String
  spanishScope : String
  sketchUrl : Option String
  photoResults : List UploadResult
  workItems : List WorkItem
deriving Inhabited

/-- `rawWorkOrderNumber`, `src/lib/sheets.js` line 131:
`structuredData.workOrderNumber || WO-${Date.now()}`. -/
def rawWorkOrderNumber (sub : Submission) (now : Nat) : String :=
  match sub.workOrderNumber with
  | some s => if s = "" then woDefault now else s
  | none => woDefault now

/-- The deterministic cell/merge/gallery content written for one submission. -/
structure RenderedDoc where
  headerCells : List (String × Cell)
  table : List ValueRange
  merges : List (Nat × Nat)
  gallery : Option GalleryPlan
deriving DecidableEq

/-- The fixed header-region cell writes (`cellData`, `src/lib/sheets.js`
lines 238-262).  `strip` is the pure markdown stripper
(`stripMarkdown`, `src/lib/markdownUtils.js`), kept abstract because no
claim depends on its internals. -/
def headerCellData (strip : String → String) (sub : Submission) (now : Nat) :
    List (String × Cell) :=
  [ ("A1", .str "WO#"), ("B1", .str (rawWorkOrderNumber sub now)),
    ("D1", .str "Unit #"), ("E1", .str sub.unitNumber),
    ("A2", .str "Address"), ("B2", .str sub.address),
    ("D2", .str "Unit SQ FT"),
    ("E2", .str (sub.unitSquareFeet ++ "          Unit Layout: " ++ sub.unitLayout)),
    ("A3", .str "Overview"), ("E3", .str "Spanish"),
    ("A4", .str (strip sub.englishScope)), ("E4", .str (strip sub.spanishScope)),
    ("A5", .str "Unit Layout") ]
  ++ (match sub.sketchUrl with
      | some u => [("A6", Cell.str ("=IMAGE(\x22" ++ u ++ "\x22, 1)"))]
      | none => [])

/-- The full deterministic document content for one submission
(`src/lib/sheets.js` lines 193-872). -/
def renderDoc (strip : String → String) (sub : Submission) (now : Nat) : RenderedDoc :=
  { headerCells := headerCellData strip sub now
    table := tableData sub.workItems
    merges := categoryMerges ((sortedWorkItems sub.workItems).map (·.category))
    gallery := galleryPlan sub.photoResults (totalRowNum sub.workItems)
      (workItemRows sub.workItems).length }

/-- The spreadsheet as a list of `(title, content)` sheets.  Titles are
unique in Google Sheets; deletion goes through the sheet id of the first
title match, which under that invariant is first-match removal. -/
abbrev SheetStore := List (String × RenderedDoc)

/-- `findSheetByName`, `src/lib/sheets.js` lines 26-32: the (index standing
in for the sheet id of the) first sheet with the given title. -/
def findSheetByName (store : SheetStore) (name : String) : Option Nat :=
  store.findIdx? fun s => s.1 == name

/-- Deletion of the sheet found by `findSheetByName`
(`src/lib/sheets.js` lines 136-145). -/
def deleteFirstTitled (name : String) : SheetStore → SheetStore
  | [] => []
  | s :: rest => if s.1 = name then rest else s :: deleteFirstTitled name rest

/-- The delete-then-create-then-write sequence of `writeToSheet`
(`src/lib/sheets.js` lines 131-161 followed by the content writes):
delete any sheet with the sanitized name, add a fresh sheet of that name,
write the rendered content into it. -/
def commitSheet (strip : String → String) (store : SheetStore)
    (sub : Submission) (now : Nat) : SheetStore :=
  let newSheetName := sanitizeSheetName (some (rawWorkOrderNumber sub now)) now
  let store' :=
    match findSheetByName store newSheetName with
    | some _ => deleteFirstTitled newSheetName store
    | none => store
  store' ++ [(newSheetName, renderDoc strip sub now)]

/-! ### Concrete inputs used by counterexamples and witnesses -/

/-- A work item carrying a caller-supplied total (100) that disagrees with
`quantity × unit price` (2 × 3). -/
def callerTotalItem : WorkItem :=
  { category := "Doors", item := "Door Knob", description := "Remove & Install",
    unit := "EA", multiplier := some 2, pricePerUnit := some 3,
    total := some 100, notes := "" }

/-- A work item with no caller-supplied total. -/
def plainItem : WorkItem :=
  { category := "Painting", item := "Walls", description := "Paint",
    unit := "SF", multiplier := some 2, pricePerUnit := some 3,
    total := none, notes := "" }

/-- The sorted category column of the spec's merge-run example. -/
def exampleCats : List String := ["A", "A", "A", "B", "C", "C"]

/-- A small work-item list exercising the sort, the stability and the
contiguity statements. -/
def exampleItems : List WorkItem :=
  [ { plainItem with category := "Painting", item := "Walls" },
    { plainItem with category := "Doors", item := "Door Knob" },
    { plainItem with category := "Painting", item := "Ceiling" },
    { plainItem with category := "Painting", item := "Trim" } ]

/-- A batch of five photos, as in the partial-upload-resilience property. -/
def examplePhotos : List Photo :=
  [ ⟨"data:image/jpeg;base64,AAAA", "p1.jpg", "front"⟩,
    ⟨"data:image/jpeg;base64,BBBB", "p2.jpg", ""⟩,
    ⟨"data:image/jpeg;base64,CCCC", "p3.jpg", "broken"⟩,
    ⟨"data:image/jpeg;base64,DDDD", "p4.jpg", ""⟩,
    ⟨"data:image/jpeg;base64,EEEE", "p5.jpg", "back"⟩ ]

/-- Upload outcomes where exactly photo #3 (index 2) fails. -/
def exampleOutcome : Nat → Photo → Except String String :=
  fun i _ => if i = 2 then Except.error "Photo upload timeout (30s)" else Except.ok "abc123"

/-- A one-category catalog fragment for the lookup witnesses. -/
def exampleCatalog : Catalog :=
  [("Painting", [⟨"Walls", "Paint", "SF", 1, none⟩])]

/-- A work item whose `(category, item, description)` triple has no entry in
`exampleCatalog`. -/
def exampleMissItem : WorkItem :=
  { category := "Electrical", item := "Outlet", description := "Install",
    unit := "EA", multiplier := some 4, pricePerUnit := some 0,
    total := none, notes := "" }

/-- An empty rendered document used to populate example stores. -/
def emptyDoc : RenderedDoc := ⟨[], [], [], none⟩

/-- An example submission (work-order number `WO-7`). -/
def exampleSubmission : Submission :=
  { workOrderNumber := some "WO-7", unitNumber := "101", address := "1 Main St",
    unitSquareFeet := "800", unitLayout := "2BR", englishScope := "scope",
    spanishScope := "alcance", sketchUrl := none,
    photoResults := [.err "p1.jpg" "boom"],
    workItems := [plainItem, callerTotalItem] }

/-- An example pre-existing store containing a stale `WO-7` sheet. -/
def exampleStore : SheetStore :=
  [("Sheet1", emptyDoc), ("WO-7", emptyDoc), ("Other", emptyDoc)]

/-! ### Helper lemmas -/

theorem foldl_add_eq_sum (f : WorkItem → Int) (l : List WorkItem) (a : Int) :
    l.foldl (fun s it => s + f it) a = a + (l.map f).sum := by
  induction l generalizing a with
  | nil => simp
  | cons x xs ih => simp [ih, add_assoc]

theorem rowTotal_eq_grandTotal_addend (it : WorkItem) :
    rowTotal it = jsOr (safeNumber it.total) (safeNumber it.multiplier * safeNumber it.pricePerUnit) := by
  simp [rowTotal]

theorem galleryPlan_none (pr : List UploadResult) (tRow wc : Nat)
    (h : successfulPhotos pr = []) : galleryPlan pr tRow wc = none := by
  cases pr with
  | nil => rfl
  | cons r rest => simp [galleryPlan, h]

theorem photoGalleryEndRow_none (pr : List UploadResult) (tRow wc : Nat)
    (h : successfulPhotos pr = []) : photoGalleryEndRow pr tRow wc = tRow := by
  unfold photoGalleryEndRow
  rw [galleryPlan_none pr tRow wc h]

/-! ### C1 — row totals and the grand total -/

/-- **C1, counterexample.**  The claim says any caller-supplied `total` is
ignored and recomputed as quantity × unit price.  For a work item with
quantity 2, unit price 3 and caller-supplied total 100, `writeToSheet`
writes 100 (not 6) both in the row and in the grand total. -/
theorem C1_counterexample :
    rowTotal callerTotalItem = 100
  ∧ safeNumber callerTotalItem.multiplier * safeNumber callerTotalItem.pricePerUnit = 6
  ∧ grandTotal [callerTotalItem] = 100
  ∧ (100 : Int) ≠ 6 := by decide

/-- **C1, amended.**  The written row total is the caller-supplied total
whenever that coerces to a non-zero number; only when the caller total is
absent, non-numeric or zero is it recomputed as quantity × unit price; the
grand total is the sum of the per-row totals. -/
theorem C1_amended :
    (∀ items : List WorkItem, grandTotal items = (items.map rowTotal).sum)
  ∧ (∀ it : WorkItem, safeNumber it.total = 0 →
      rowTotal it = safeNumber it.multiplier * safeNumber it.pricePerUnit)
  ∧ (∀ it : WorkItem, safeNumber it.total ≠ 0 → rowTotal it = safeNumber it.total) := by
  refine ⟨fun items => ?_, fun it h => ?_, fun it h => ?_⟩
  · unfold grandTotal
    rw [foldl_add_eq_sum, zero_add]
    congr 1
    exact List.map_congr_left fun it _ => (rowTotal_eq_grandTotal_addend it).symm
  · simp [rowTotal, jsOr, h]
  · simp [rowTotal, jsOr, h]

/-- Witness for `C1_amended` at concrete items. -/
theorem C1_amended_witness :
    grandTotal [plainItem, callerTotalItem] = ([plainItem, callerTotalItem].map rowTotal).sum
  ∧ rowTotal plainItem = safeNumber plainItem.multiplier * safeNumber plainItem.pricePerUnit
  ∧ rowTotal callerTotalItem = safeNumber callerTotalItem.total :=
  ⟨C1_amended.1 [plainItem, callerTotalItem],
   C1_amended.2.1 plainItem (by decide),
   C1_amended.2.2 callerTotalItem (by decide)⟩

/-! ### C2 — page-break spacer -/

/-- **C2.**  For all `S` and `H > 0` the spacer equals
`max (H - S % H + 20) 50`; it never falls below the 50px floor; and whenever
the floor does not bind, `S + spacer` is a multiple of `H` plus exactly the
20px buffer. -/
theorem C2_spacer (S H : Nat) (hH : 0 < H) :
    pageBreakSpacer S H = max (H - S % H + 20) 50
  ∧ 50 ≤ pageBreakSpacer S H
  ∧ (50 ≤ H - S % H + 20 → (S + pageBreakSpacer S H - 20) % H = 0) := by
  refine ⟨rfl, le_max_right _ _, fun hcl => ?_⟩
  have hmod : S % H < H := Nat.mod_lt _ hH
  have hdiv : H * (S / H) + S % H = S := Nat.div_add_mod S H
  have hmax : pageBreakSpacer S H = H - S % H + 20 := max_eq_left hcl
  have harith : S + pageBreakSpacer S H - 20 = H * (S / H) + H := by
    rw [hmax]; omega
  rw [harith, ← Nat.mul_succ, Nat.mul_mod_right]

/-- Witness for `C2_spacer` with three work items on a 684px page. -/
theorem C2_spacer_witness :
    pageBreakSpacer (estimatedContentHeight 3) PAGE_HEIGHT_PX
      = max (PAGE_HEIGHT_PX - estimatedContentHeight 3 % PAGE_HEIGHT_PX + 20) 50
  ∧ (estimatedContentHeight 3 + pageBreakSpacer (estimatedContentHeight 3) PAGE_HEIGHT_PX - 20)
      % PAGE_HEIGHT_PX = 0 :=
  ⟨(C2_spacer (estimatedContentHeight 3) PAGE_HEIGHT_PX (by decide)).1,
   (C2_spacer (estimatedContentHeight 3) PAGE_HEIGHT_PX (by decide)).2.2 (by decide)⟩

/-! ### C10 — shape of a written work-item row -/

/-- **C10.**  Every written row is
`[category, item, description, unit, amount, 1, pricePerUnit, total, notes]`
where the Multiplier column (F, index 5) is the constant 1 and the Amount
column (E, index 4) holds the input field named `multiplier` coerced through
`safeNumber` (0 when non-numeric). -/
theorem C10_row_shape (it : WorkItem) :
    workItemRow it =
      [ .str it.category, .str it.item, .str it.description, .str it.unit,
        .num (safeNumber it.multiplier), .num 1, .num (safeNumber it.pricePerUnit),
        .num (rowTotal it), .str it.notes ]
  ∧ (workItemRow it).get? 5 = some (.num 1)
  ∧ (workItemRow it).get? 4 = some (.num (safeNumber it.multiplier))
  ∧ (workItemRow it).length = 9
  ∧ safeNumber none = 0 :=
  ⟨rfl, rfl, rfl, rfl, rfl⟩

/-! ### C7 — zero-item and zero-photo edge cases -/

/-- **C7.**  With an empty work-item list the table is still written as the
header row at row 7 immediately followed by the TOTAL row at row 8 with
grand total 0; and whenever there is no successful photo, the gallery block
and its spacer are omitted and the document ends at the TOTAL row. -/
theorem C7_empty_cases :
    tableData [] = [⟨HEADER_ROW, HEADER_ROW, [headersRow]⟩,
                    ⟨HEADER_ROW + 1, HEADER_ROW + 1, [totalRowCells []]⟩]
  ∧ grandTotal [] = 0
  ∧ totalRowCells []
      = [ .str "", .str "", .str "", .str "", .str "", .str "",
          .str "TOTAL:", .num 0, .str "" ]
  ∧ (∀ (photoResults : List UploadResult) (tRow wc : Nat),
      successfulPhotos photoResults = [] →
        galleryPlan photoResults tRow wc = none
      ∧ photoGalleryEndRow photoResults tRow wc = tRow) := by
  refine ⟨by decide, by decide, by decide, fun pr tRow wc h => ?_⟩
  exact ⟨galleryPlan_none pr tRow wc h, photoGalleryEndRow_none pr tRow wc h⟩

/-- Witness for `C7_empty_cases` at a batch whose only photo failed. -/
theorem C7_empty_cases_witness :
    galleryPlan [.err "p1.jpg" "boom"] 8 0 = none
  ∧ photoGalleryEndRow [.err "p1.jpg" "boom"] 8 0 = 8 :=
  C7_empty_cases.2.2.2 [.err "p1.jpg" "boom"] 8 0 (by decide)

/-! ### C9 — sheet-name sanitisation -/

theorem replaceInvalidChars_valid (cs : List Char) :
    ∀ c ∈ replaceInvalidChars cs, invalidSheetNameChars.contains c = false := by
  intro c hc
  simp only [replaceInvalidChars, List.mem_map] at hc
  obtain ⟨x, -, rfl⟩ := hc
  by_cases h : invalidSheetNameChars.contains x
  · rw [if_pos h]; decide
  · rw [if_neg h]; simpa using h

theorem mem_of_mem_jsTrim {c : Char} {cs : List Char} (h : c ∈ jsTrim cs) : c ∈ cs := by
  unfold jsTrim at h
  rw [List.mem_reverse] at h
  have h1 := (List.dropWhile_sublist _).subset h
  rw [List.mem_reverse] at h1
  exact (List.dropWhile_sublist _).subset h1

/-- **C9, counterexample.**  The claim reads `sanitizeSheetName` as
*removing* the invalid characters.  The code replaces each of them with a
hyphen: on `"WO:12/3"` it produces `"WO-12-3"`, not `"WO123"`. -/
theorem C9_counterexample :
    sanitizeSheetName (some "WO:12/3") 0 = "WO-12-3"
  ∧ removeInvalidChars "WO:12/3" = "WO123"
  ∧ sanitizeSheetName (some "WO:12/3") 0 ≠ removeInvalidChars "WO:12/3" := by decide

/-- **C9, amended.**  `sanitizeSheetName` *replaces* each character invalid
in a sheet name (apostrophe, `*`, `?`, `:`, `/`, `\`, `[`, `]`) with `-`
— so its output contains no invalid character — trims and truncates to 100
characters, and returns the timestamp-derived default `WO-<now>` when the
input is missing, not a string, empty, or trims to empty. -/
theorem C9_amended (s : String) (now : Nat) :
    sanitizeSheetName none now = woDefault now
  ∧ sanitizeSheetName (some "") now = woDefault now
  ∧ (sanitizeSheetName (some s) now = woDefault now
      ∨ ((∀ c ∈ (sanitizeSheetName (some s) now).data,
            invalidSheetNameChars.contains c = false)
        ∧ (sanitizeSheetName (some s) now).data.length ≤ 100)) := by
  refine ⟨rfl, rfl, ?_⟩
  by_cases hs : s = ""
  · subst hs; left; rfl
  · simp only [sanitizeSheetName]
    rw [if_neg hs]
    set t := jsTrim (replaceInvalidChars s.data) with ht
    by_cases hlong : t.length > 100
    · rw [if_pos hlong]
      by_cases hnil : (t.take 100).isEmpty
      · left; rw [if_pos hnil]
      · right
        rw [if_neg hnil]
        refine ⟨fun c hc => ?_, ?_⟩
        · have hmem : c ∈ t := List.take_subset _ _ hc
          exact replaceInvalidChars_valid _ c (mem_of_mem_jsTrim (ht ▸ hmem))
        · show (t.take 100).length ≤ 100
          simp
    · rw [if_neg hlong]
      by_cases hnil : t.isEmpty
      · left; rw [if_pos hnil]
      · right
        rw [if_neg hnil]
        refine ⟨fun c hc => ?_, ?_⟩
        · exact replaceInvalidChars_valid _ c (mem_of_mem_jsTrim (ht ▸ hc))
        · show t.length ≤ 100
          omega

/-- Witness for `C9_amended` at `s = "a:b"`, `now = 0`. -/
theorem C9_amended_witness :
    sanitizeSheetName none 0 = woDefault 0
  ∧ sanitizeSheetName (some "") 0 = woDefault 0
  ∧ (sanitizeSheetName (some "a:b") 0 = woDefault 0
      ∨ ((∀ c ∈ (sanitizeSheetName (some "a:b") 0).data,
            invalidSheetNameChars.contains c = false)
        ∧ (sanitizeSheetName (some "a:b") 0).data.length ≤ 100)) :=
  C9_amended "a:b" 0

/-! ### C8 — catalog misses never drop data -/

/-- **C8.**  A `(category, item, description)` triple with no catalog entry
yields unit price 0 and materials flag `false` from the (total, hence
non-throwing) lookup functions; a work item with such a triple still passes
the `handleSave` normalisation and appears in the final table rows; and
every normalised item comes from an input item passing the
category/item/quantity filter, so only items missing a category, missing an
item name, or with non-positive quantity are excluded. -/
theorem C8_catalog_miss (catalog : Catalog) (cat itm desc : String)
    (hmiss : findPricing catalog cat itm desc = none)
    (w : WorkItem) (items : List WorkItem) (hw : w ∈ items)
    (_hcat : w.category = cat) (_hitem : w.item = itm) (_hdesc : w.description = desc)
    (hc : w.category ≠ "") (hi : w.item ≠ "") (hq : 0 < safeNumber w.multiplier) :
    getDefaultPrice catalog cat itm desc = 0
  ∧ requiresMaterialsCost catalog cat itm desc = false
  ∧ normalizeItem w ∈ validItems items
  ∧ workItemRow (normalizeItem w) ∈ workItemRows (validItems items)
  ∧ (∀ v ∈ validItems items, ∃ u ∈ items, v = normalizeItem u ∧ validItemFilter u = true) := by
  have hfilter : validItemFilter w = true := by simp [validItemFilter, hc, hi, hq]
  have hmem : normalizeItem w ∈ validItems items :=
    List.mem_map.mpr ⟨w, List.mem_filter.mpr ⟨hw, hfilter⟩, rfl⟩
  refine ⟨?_, ?_, hmem, ?_, ?_⟩
  · simp [getDefaultPrice, hmiss]
  · simp [requiresMaterialsCost, hmiss]
  · exact List.mem_map.mpr ⟨normalizeItem w, (List.mem_insertionSort catRel).mpr hmem, rfl⟩
  · intro v hv
    simp only [validItems, List.mem_map, List.mem_filter] at hv
    obtain ⟨u, ⟨hu, hf⟩, rfl⟩ := hv
    exact ⟨u, hu, rfl, hf⟩

/-- Witness for `C8_catalog_miss`: `("Electrical", "Outlet", "Install")` is
absent from `exampleCatalog`, yet `exampleMissItem` survives normalisation. -/
theorem C8_catalog_miss_witness :
    getDefaultPrice exampleCatalog "Electrical" "Outlet" "Install" = 0
  ∧ requiresMaterialsCost exampleCatalog "Electrical" "Outlet" "Install" = false
  ∧ normalizeItem exampleMissItem ∈ validItems [exampleMissItem]
  ∧ workItemRow (normalizeItem exampleMissItem) ∈ workItemRows (validItems [exampleMissItem])
  ∧ (∀ v ∈ validItems [exampleMissItem],
      ∃ u ∈ [exampleMissItem], v = normalizeItem u ∧ validItemFilter u = true) :=
  C8_catalog_miss exampleCatalog "Electrical" "Outlet" "Install" (by decide)
    exampleMissItem [exampleMissItem] (by decide) rfl rfl rfl (by decide) (by decide) (by decide)

/-! ### C3 — category merge-run detection -/

theorem consRun_consRun (a : String) (k : Nat) (X : List (String × Nat)) :
    consRun a k (consRun a 1 X) = consRun a (k + 1) X := by
  cases X with
  | nil => simp [consRun, Nat.add_comm]
  | cons hd tl =>
    obtain ⟨d, n⟩ := hd
    by_cases h : a = d
    · have harith : n + 1 + k = n + (k + 1) := by omega
      simp [consRun, h, harith]
    · have harith : 1 + k = k + 1 := by omega
      simp [consRun, h, harith]

theorem consRun_head_ne (a c : String) (k : Nat) (X : List (String × Nat))
    (h : a ≠ c) : consRun a k (consRun c 1 X) = (a, k) :: consRun c 1 X := by
  cases X with
  | nil => simp [consRun, h]
  | cons hd tl =>
    obtain ⟨d, n⟩ := hd
    by_cases h2 : c = d
    · subst h2
      simp [consRun, h]
    · simp [consRun, h, h2]

theorem mergeLoop_eq_mergesOfRuns (rest : List String) :
    ∀ (cur : String) (s k : Nat), 1 ≤ k →
      mergeLoop cur s (s + k) rest = mergesOfRuns s (consRun cur k (runs rest)) := by
  induction rest with
  | nil =>
    intro cur s k hk
    simp only [mergeLoop, runs, consRun, mergesOfRuns]
    rw [Nat.add_sub_cancel_left]
    by_cases h : k > 1 <;> simp [h]
  | cons c rs ih =>
    intro cur s k hk
    by_cases h : c = cur
    · subst h
      simp only [mergeLoop]
      rw [if_neg (not_not_intro rfl)]
      rw [Nat.add_assoc]
      rw [ih c s (k + 1) (by omega)]
      simp only [runs]
      rw [consRun_consRun]
    · simp only [mergeLoop]
      rw [if_pos h]
      rw [ih c (s + k) 1 (le_refl 1)]
      simp only [runs]
      rw [consRun_head_ne cur c k (runs rs) (Ne.symm h)]
      simp only [mergesOfRuns]
      rw [Nat.add_sub_cancel_left]

theorem categoryMerges_eq_runs (cats : List String) :
    categoryMerges cats = mergesOfRuns 0 (runs cats) := by
  cases cats with
  | nil => rfl
  | cons c rs =>
    have h := mergeLoop_eq_mergesOfRuns rs c 0 1 (le_refl 1)
    simpa [categoryMerges, runs] using h

theorem consRun_pos (a : String) (k : Nat) (X : List (String × Nat)) (hk : 1 ≤ k)
    (hX : ∀ p ∈ X, 1 ≤ p.2) : ∀ p ∈ consRun a k X, 1 ≤ p.2 := by
  cases X with
  | nil =>
    intro p hp
    have hpk : p = (a, k) := by simpa [consRun] using hp
    subst hpk
    exact hk
  | cons hd tl =>
    obtain ⟨d, n⟩ := hd
    by_cases h : a = d
    · simp only [consRun, if_pos h]
      intro p hp
      rcases List.mem_cons.mp hp with h1 | h1
      · subst h1; simp; omega
      · exact hX p (List.mem_cons_of_mem _ h1)
    · simp only [consRun, if_neg h]
      intro p hp
      rcases List.mem_cons.mp hp with h1 | h1
      · subst h1; simpa using hk
      · exact hX p h1

theorem runs_pos (cats : List String) : ∀ p ∈ runs cats, 1 ≤ p.2 := by
  induction cats with
  | nil => intro p hp; simp [runs] at hp
  | cons c rs ih => exact consRun_pos c 1 (runs rs) (le_refl 1) ih

theorem consRun_chain (a : String) (k : Nat) (X : List (String × Nat))
    (hX : List.Chain' (fun p q => p.1 ≠ q.1) X) :
    List.Chain' (fun p q => p.1 ≠ q.1) (consRun a k X) := by
  cases X with
  | nil => simp [consRun]
  | cons hd tl =>
    obtain ⟨d, n⟩ := hd
    by_cases h : a = d
    · simp only [consRun, if_pos h]
      cases tl with
      | nil => simp
      | cons q tq =>
        obtain ⟨hdq, htl⟩ := List.chain'_cons.mp hX
        exact List.chain'_cons.mpr ⟨hdq, htl⟩
    · simp only [consRun, if_neg h]
      exact List.chain'_cons.mpr ⟨h, hX⟩

theorem runs_chain (cats : List String) :
    List.Chain' (fun p q => p.1 ≠ q.1) (runs cats) := by
  induction cats with
  | nil => simp [runs]
  | cons c rs ih => exact consRun_chain c 1 (runs rs) ih

theorem consRun_flatten (a : String) (k : Nat) (X : List (String × Nat)) :
    ((consRun a k X).map fun p => List.replicate p.2 p.1).flatten
      = List.replicate k a ++ (X.map fun p => List.replicate p.2 p.1).flatten := by
  cases X with
  | nil => simp [consRun]
  | cons hd tl =>
    obtain ⟨d, n⟩ := hd
    by_cases h : a = d
    · subst h
      have hc : consRun a k ((a, n) :: tl) = (a, n + k) :: tl := by simp [consRun]
      rw [hc, List.map_cons, List.flatten_cons, List.map_cons, List.flatten_cons,
        ← List.append_assoc, ← List.replicate_add, Nat.add_comm k n]
    · simp [consRun, h]

theorem runs_flatten (cats : List String) :
    ((runs cats).map fun p => List.replicate p.2 p.1).flatten = cats := by
  induction cats with
  | nil => rfl
  | cons c rs ih =>
    show ((consRun c 1 (runs rs)).map fun p => List.replicate p.2 p.1).flatten = c :: rs
    rw [consRun_flatten]
    simp [ih]

/-- **C3.**  The emitted category merges are exactly one merge range per
maximal run of consecutive equal categories spanning more than one row
(`mergesOfRuns` over the run-length encoding `runs`, whose runs are nonempty
(`1 ≤ p.2`), maximal (adjacent runs have different categories), and
reconstruct the input); on `[A,A,A,B,C,C]` this yields exactly the A-merge
over data rows 1-3 and the C-merge over data rows 5-6 (0-indexed sheet rows
`(7,10)` and `(11,13)`), and none for B. -/
theorem C3_merge_runs (cats : List String) :
    categoryMerges cats = mergesOfRuns 0 (runs cats)
  ∧ (∀ p ∈ runs cats, 1 ≤ p.2)
  ∧ List.Chain' (fun p q => p.1 ≠ q.1) (runs cats)
  ∧ ((runs cats).map fun p => List.replicate p.2 p.1).flatten = cats
  ∧ categoryMerges exampleCats = [(7, 10), (11, 13)] :=
  ⟨categoryMerges_eq_runs cats, runs_pos cats, runs_chain cats, runs_flatten cats, by decide⟩

/-- Witness for `C3_merge_runs` at the `[A,A,A,B,C,C]` example. -/
theorem C3_merge_runs_witness :
    categoryMerges exampleCats = mergesOfRuns 0 (runs exampleCats)
  ∧ 1 ≤ (("A", 3) : String × Nat).2
  ∧ ((runs exampleCats).map fun p => List.replicate p.2 p.1).flatten = exampleCats :=
  ⟨(C3_merge_runs exampleCats).1,
   (C3_merge_runs exampleCats).2.1 ("A", 3) (by decide),
   (C3_merge_runs exampleCats).2.2.2.1⟩

/-! ### C4 — sorted, stable, category-contiguous -/

theorem charListLE_refl : ∀ cs : List Char, charListLE cs cs = true
  | [] => rfl
  | c :: cs => by simp [charListLE, charListLE_refl cs]

theorem charListLE_trans : ∀ as bs cs : List Char, charListLE as bs = true →
    charListLE bs cs = true → charListLE as cs = true
  | [], _, _, _, _ => rfl
  | _ :: _, [], _, hab, _ => by simp [charListLE] at hab
  | _ :: _, _ :: _, [], _, hbc => by simp [charListLE] at hbc
  | a :: as, b :: bs, c :: cs, hab, hbc => by
    simp only [charListLE] at hab hbc ⊢
    by_cases h1 : a = b
    · subst h1
      rw [if_pos rfl] at hab
      by_cases h2 : a = c
      · subst h2
        rw [if_pos rfl] at hbc ⊢
        exact charListLE_trans as bs cs hab hbc
      · rw [if_neg h2] at hbc ⊢
        exact hbc
    · rw [if_neg h1] at hab
      have hlt1 : a < b := of_decide_eq_true hab
      by_cases h2 : b = c
      · subst h2
        rw [if_neg h1]
        exact hab
      · rw [if_neg h2] at hbc
        have hlt2 : b < c := of_decide_eq_true hbc
        have hlt : a < c := lt_trans hlt1 hlt2
        rw [if_neg (ne_of_lt hlt)]
        exact decide_eq_true hlt

theorem charListLE_total : ∀ as bs : List Char, charListLE as bs = true ∨ charListLE bs as = true
  | [], _ => Or.inl rfl
  | _ :: _, [] => Or.inr rfl
  | a :: as, b :: bs => by
    by_cases h : a = b
    · subst h
      simp only [charListLE, if_pos rfl]
      exact charListLE_total as bs
    · simp only [charListLE, if_neg h, if_neg (Ne.symm h)]
      rcases lt_or_gt_of_ne h with hlt | hgt
      · exact Or.inl (decide_eq_true hlt)
      · exact Or.inr (decide_eq_true hgt)

theorem charListLE_antisymm : ∀ as bs : List Char, charListLE as bs = true →
    charListLE bs as = true → as = bs
  | [], [], _, _ => rfl
  | [], _ :: _, _, hba => by simp [charListLE] at hba
  | _ :: _, [], hab, _ => by simp [charListLE] at hab
  | a :: as, b :: bs, hab, hba => by
    by_cases h : a = b
    · subst h
      simp only [charListLE, if_pos rfl] at hab hba
      rw [charListLE_antisymm as bs hab hba]
    · simp only [charListLE, if_neg h, if_neg (Ne.symm h)] at hab hba
      exact absurd (lt_trans (of_decide_eq_true hab) (of_decide_eq_true hba)) (lt_irrefl a)

theorem strLE_refl (s : String) : strLE s s = true := charListLE_refl s.data

theorem strLE_trans {a b c : String} (h1 : strLE a b = true) (h2 : strLE b c = true) :
    strLE a c = true :=
  charListLE_trans a.data b.data c.data h1 h2

theorem strLE_total (a b : String) : strLE a b = true ∨ strLE b a = true :=
  charListLE_total a.data b.data

theorem strLE_antisymm {a b : String} (h1 : strLE a b = true) (h2 : strLE b a = true) :
    a = b := by
  cases a with
  | mk da =>
    cases b with
    | mk db => exact congrArg String.mk (charListLE_antisymm da db h1 h2)

/-- **C4.**  The sorted work-item list is ordered by category
(`Sorted catRel`), stable (for every category the subsequence of items of
that category is exactly the input subsequence, preserving input order),
and category-contiguous: equal categories at positions `i < k` force every
position in between to carry the same category. -/
theorem C4_sorted_stable_contiguous (items : List WorkItem) :
    List.Sorted catRel (sortedWorkItems items)
  ∧ (∀ c : String, (sortedWorkItems items).filter (fun it => it.category == c)
      = items.filter (fun it => it.category == c))
  ∧ (∀ i j k : Nat, i < j → j < k → k < (sortedWorkItems items).length →
      ((sortedWorkItems items).getD i default).category
        = ((sortedWorkItems items).getD k default).category →
      ((sortedWorkItems items).getD j default).category
        = ((sortedWorkItems items).getD i default).category) := by
  haveI : IsTrans WorkItem catRel := ⟨fun _ _ _ => strLE_trans⟩
  haveI : IsTotal WorkItem catRel := ⟨fun a b => strLE_total a.category b.category⟩
  have hsorted : List.Sorted catRel (sortedWorkItems items) :=
    List.sorted_insertionSort catRel items
  refine ⟨hsorted, fun c => ?_, fun i j k hij hjk hk hik => ?_⟩
  · set p : WorkItem → Bool := fun it => it.category == c with hp
    have hpair : (items.filter p).Pairwise catRel := by
      apply List.pairwise_of_forall_mem_list
      intro x hx y hy
      have hxc : x.category = c := by simpa [hp] using (List.mem_filter.mp hx).2
      have hyc : y.category = c := by simpa [hp] using (List.mem_filter.mp hy).2
      show strLE x.category y.category = true
      rw [hxc, hyc]
      exact strLE_refl c
    have hstable : List.Sublist (items.filter p) (sortedWorkItems items) :=
      List.sublist_insertionSort hpair (List.filter_sublist items)
    have hidem : (items.filter p).filter p = items.filter p :=
      List.filter_eq_self.mpr fun a ha => (List.mem_filter.mp ha).2
    have hsub2 : List.Sublist (items.filter p) ((sortedWorkItems items).filter p) := by
      rw [← hidem]
      exact hstable.filter p
    have hlen : (items.filter p).length = ((sortedWorkItems items).filter p).length := by
      rw [← List.countP_eq_length_filter, ← List.countP_eq_length_filter]
      exact ((List.perm_insertionSort catRel items).countP_eq p).symm
    exact (hsub2.eq_of_length hlen).symm
  · set l := sortedWorkItems items with hl
    have hi : i < l.length := by omega
    have hj : j < l.length := by omega
    rw [List.getD_eq_getElem l default hi, List.getD_eq_getElem l default hj,
      List.getD_eq_getElem l default hk] at *
    have h1 : catRel (l.get ⟨i, hi⟩) (l.get ⟨j, hj⟩) :=
      hsorted.rel_get_of_lt (by exact hij)
    have h2 : catRel (l.get ⟨j, hj⟩) (l.get ⟨k, hk⟩) :=
      hsorted.rel_get_of_lt (by exact hjk)
    have h1' : strLE (l[i].category) (l[j].category) = true := h1
    have h2' : strLE (l[j].category) (l[k].category) = true := h2
    rw [← hik] at h2'
    exact (strLE_antisymm h1' h2').symm

/-- Witness for `C4_sorted_stable_contiguous` on a four-item list with
categories Painting, Doors, Painting, Painting. -/
theorem C4_sorted_stable_contiguous_witness :
    (sortedWorkItems exampleItems).filter (fun it => it.category == "Painting")
      = exampleItems.filter (fun it => it.category == "Painting")
  ∧ ((sortedWorkItems exampleItems).getD 2 default).category
      = ((sortedWorkItems exampleItems).getD 1 default).category :=
  ⟨(C4_sorted_stable_contiguous exampleItems).2.1 "Painting",
   (C4_sorted_stable_contiguous exampleItems).2.2 1 2 3 (by decide) (by decide) (by decide)
     (by decide)⟩

/-! ### C5 — per-photo upload independence and gap-free gallery -/

theorem uploadPhotosToDrive_eq_loop (outcome : Nat → Photo → Except String String)
    (photos : List Photo) (won : String) :
    uploadPhotosToDrive outcome photos won = uploadLoop outcome won 0 photos := by
  cases photos with
  | nil => rfl
  | cons p rest => rfl

theorem uploadLoop_length (outcome : Nat → Photo → Except String String) (won : String) :
    ∀ (i : Nat) (photos : List Photo),
      (uploadLoop outcome won i photos).length = photos.length
  | _, [] => rfl
  | i, _ :: rest => by
    simp [uploadLoop, uploadLoop_length outcome won (i + 1) rest]

theorem uploadLoop_getD (outcome : Nat → Photo → Except String String) (won : String) :
    ∀ (photos : List Photo) (i j : Nat), j < photos.length →
      (uploadLoop outcome won i photos).getD j default
        = uploadOne won (i + j) (photos.getD j default)
            (outcome (i + j) (photos.getD j default))
  | [], _, j, hj => by simp at hj
  | p :: rest, i, 0, _ => rfl
  | p :: rest, i, j + 1, hj => by
    have hrec := uploadLoop_getD outcome won rest (i + 1) j (by simpa using hj)
    have harith : i + 1 + j = i + (j + 1) := by omega
    simpa [uploadLoop, harith] using hrec

theorem uploadLoop_shape (outcome : Nat → Photo → Except String String) (won : String) :
    ∀ (i : Nat) (photos : List Photo), ∀ r ∈ uploadLoop outcome won i photos,
      (∃ p, r = .ok p ∧ p.directUrl = DRIVE_URL_STEM ++ p.fileId) ∨ (∃ n m, r = .err n m)
  | _, [], r, hr => by simp [uploadLoop] at hr
  | i, p :: rest, r, hr => by
    rcases List.mem_cons.mp hr with h1 | h1
    · subst h1
      unfold uploadOne
      cases outcome i p with
      | ok fileId => exact Or.inl ⟨_, rfl, rfl⟩
      | error msg => exact Or.inr ⟨_, _, rfl⟩
    · exact uploadLoop_shape outcome won (i + 1) rest r h1

theorem photoBlocks_length (ps : List UploadedPhoto) :
    ∀ start : Nat, (photoBlocks start ps).length = ps.length := by
  induction ps with
  | nil => intro start; rfl
  | cons p rest ih => intro start; simp [photoBlocks, ih]

theorem photoBlocks_getD :
    ∀ (ps : List UploadedPhoto) (start j : Nat), j < ps.length →
      (photoBlocks start ps).getD j default
        = (start + 2 * j, start + 2 * j + 1, (ps.getD j default).directUrl)
  | [], _, j, hj => by simp at hj
  | p :: rest, start, 0, _ => rfl
  | p :: rest, start, j + 1, hj => by
    have hrec := photoBlocks_getD rest (start + 2) j (by simpa using hj)
    have h1 : start + 2 + 2 * j = start + 2 * (j + 1) := by omega
    have h2 : start + 2 + 2 * j + 1 = start + 2 * (j + 1) + 1 := by omega
    simpa [photoBlocks, h1, h2] using hrec

/-- **C5.**  The batch result has exactly one entry per photo, in input
order; entry `j` depends only on photo `j` and its own outcome (so one
failure never affects the other photos); every entry is a success record
whose URL embeds its file id, or an error record; and the gallery places the
successful photos in consecutive two-row blocks with no gaps. -/
theorem C5_upload_batch (outcome : Nat → Photo → Except String String)
    (won : String) (photos : List Photo) :
    (uploadPhotosToDrive outcome photos won).length = photos.length
  ∧ (∀ j, j < photos.length →
      (uploadPhotosToDrive outcome photos won).getD j default
        = uploadOne won j (photos.getD j default) (outcome j (photos.getD j default)))
  ∧ (∀ r ∈ uploadPhotosToDrive outcome photos won,
        (∃ p, r = .ok p ∧ p.directUrl = DRIVE_URL_STEM ++ p.fileId)
      ∨ (∃ n m, r = .err n m))
  ∧ (∀ (start : Nat) (ps : List UploadedPhoto),
      (photoBlocks start ps).length = ps.length)
  ∧ (∀ (start : Nat) (ps : List UploadedPhoto) (j : Nat), j < ps.length →
      (photoBlocks start ps).getD j default
        = (start + 2 * j, start + 2 * j + 1, (ps.getD j default).directUrl)) := by
  rw [uploadPhotosToDrive_eq_loop]
  exact ⟨uploadLoop_length outcome won 0 photos,
    fun j hj => by simpa using uploadLoop_getD outcome won photos 0 j hj,
    fun r hr => uploadLoop_shape outcome won 0 photos r hr,
    fun start ps => photoBlocks_length ps start,
    fun start ps j hj => photoBlocks_getD ps start j hj⟩

/-- Witness for `C5_upload_batch`: five photos with upload #3 forced to
fail yield five entries with exactly one error, four successes, and a
gap-free gallery. -/
theorem C5_upload_batch_witness :
    (uploadPhotosToDrive exampleOutcome examplePhotos "WO-7").length = examplePhotos.length
  ∧ (uploadPhotosToDrive exampleOutcome examplePhotos "WO-7").getD 2 default
      = uploadOne "WO-7" 2 (examplePhotos.getD 2 default)
          (exampleOutcome 2 (examplePhotos.getD 2 default))
  ∧ (uploadPhotosToDrive exampleOutcome examplePhotos "WO-7").countP
      (fun r => match r with | .err _ _ => true | .ok _ => false) = 1
  ∧ (successfulPhotos (uploadPhotosToDrive exampleOutcome examplePhotos "WO-7")).length = 4
  ∧ (photoBlocks 12 (successfulPhotos (uploadPhotosToDrive exampleOutcome examplePhotos "WO-7"))).map
      (fun b => (b.1, b.2.1)) = [(12, 13), (14, 15), (16, 17), (18, 19)] :=
  ⟨(C5_upload_batch exampleOutcome "WO-7" examplePhotos).1,
   (C5_upload_batch exampleOutcome "WO-7" examplePhotos).2.1 2 (by decide),
   by decide, by decide, by decide⟩

/-! ### C6 — delete-then-create replacement semantics -/

theorem filter_titled_eq_nil (name : String) (store : SheetStore)
    (h : name ∉ store.map Prod.fst) :
    store.filter (fun s => s.1 == name) = [] := by
  induction store with
  | nil => rfl
  | cons s rest ih =>
    simp only [List.map_cons, List.mem_cons] at h
    push_neg at h
    obtain ⟨h1, h2⟩ := h
    have hb : (s.1 == name) = false := by
      simp only [beq_eq_false_iff_ne, ne_eq]
      exact fun he => h1 he.symm
    simp [List.filter_cons, hb, ih h2]

theorem findSheetByName_none_filter (store : SheetStore) (name : String)
    (h : findSheetByName store name = none) :
    store.filter (fun s => s.1 == name) = [] := by
  apply filter_titled_eq_nil
  intro hmem
  obtain ⟨s, hs, hfst⟩ := List.mem_map.mp hmem
  have hall := List.findIdx?_eq_none_iff.mp h s hs
  simp [hfst] at hall

theorem deleteFirstTitled_filter (name : String) (store : SheetStore)
    (h : (store.map Prod.fst).Nodup) :
    (deleteFirstTitled name store).filter (fun s => s.1 == name) = [] := by
  induction store with
  | nil => rfl
  | cons s rest ih =>
    simp only [List.map_cons, List.nodup_cons] at h
    obtain ⟨hnot, hnd⟩ := h
    by_cases he : s.1 = name
    · simp only [deleteFirstTitled, if_pos he]
      exact filter_titled_eq_nil name rest (he ▸ hnot)
    · simp only [deleteFirstTitled, if_neg he]
      have hb : (s.1 == name) = false := by
        simp only [beq_eq_false_iff_ne, ne_eq]
        exact he
      simp [List.filter_cons, hb, ih hnd]

theorem deleteFirstTitled_sublist (name : String) :
    ∀ store : SheetStore, List.Sublist (deleteFirstTitled name store) store := by
  intro store
  induction store with
  | nil => exact List.Sublist.refl _
  | cons s rest ih =>
    by_cases he : s.1 = name
    · simp only [deleteFirstTitled, if_pos he]
      exact List.sublist_cons_self s rest
    · simp only [deleteFirstTitled, if_neg he]
      exact ih.cons₂ s

theorem not_mem_titles_of_filter_nil (store : SheetStore) (name : String)
    (h : store.filter (fun s => s.1 == name) = []) :
    name ∉ store.map Prod.fst := by
  intro hmem
  obtain ⟨s, hs, hfst⟩ := List.mem_map.mp hmem
  have hmemf : s ∈ store.filter (fun s => s.1 == name) :=
    List.mem_filter.mpr ⟨hs, by simp [hfst]⟩
  simp [h] at hmemf

theorem commitSheet_filter (strip : String → String) (store : SheetStore)
    (sub : Submission) (now : Nat) (h : (store.map Prod.fst).Nodup) :
    (commitSheet strip store sub now).filter
        (fun s => s.1 == sanitizeSheetName (some (rawWorkOrderNumber sub now)) now)
      = [(sanitizeSheetName (some (rawWorkOrderNumber sub now)) now,
          renderDoc strip sub now)] := by
  set name := sanitizeSheetName (some (rawWorkOrderNumber sub now)) now with hname
  show ((match findSheetByName store name with
        | some _ => deleteFirstTitled name store
        | none => store) ++ [(name, renderDoc strip sub now)]).filter
      (fun (s : String × RenderedDoc) => s.1 == name) = [(name, renderDoc strip sub now)]
  rw [List.filter_append]
  have hpre : (match findSheetByName store name with
      | some _ => deleteFirstTitled name store
      | none => store).filter (fun (s : String × RenderedDoc) => s.1 == name) = [] := by
    cases hfind : findSheetByName store name with
    | none => exact findSheetByName_none_filter store name hfind
    | some idx => exact deleteFirstTitled_filter name store h
  rw [hpre]
  simp

theorem commitSheet_store'_nodup (strip : String → String) (store : SheetStore)
    (sub : Submission) (now : Nat) (h : (store.map Prod.fst).Nodup) :
    ((commitSheet strip store sub now).map Prod.fst).Nodup := by
  set name := sanitizeSheetName (some (rawWorkOrderNumber sub now)) now with hname
  show ((match findSheetByName store name with
        | some _ => deleteFirstTitled name store
        | none => store) ++ [(name, renderDoc strip sub now)]).map Prod.fst |>.Nodup
  set store' : SheetStore := (match findSheetByName store name with
      | some _ => deleteFirstTitled name store
      | none => store) with hstore'
  have hsub : List.Sublist store' store := by
    rw [hstore']
    cases findSheetByName store name with
    | none => exact List.Sublist.refl _
    | some idx => exact deleteFirstTitled_sublist name store
  have hnd' : (store'.map Prod.fst).Nodup := (hsub.map Prod.fst).nodup h
  have hfilter : store'.filter (fun s => s.1 == name) = [] := by
    rw [hstore']
    cases hfind : findSheetByName store name with
    | none => exact findSheetByName_none_filter store name hfind
    | some idx => exact deleteFirstTitled_filter name store h
  have hnotin : name ∉ store'.map Prod.fst :=
    not_mem_titles_of_filter_nil store' name hfilter
  rw [List.map_append]
  apply List.Nodup.append hnd' (by simp)
  intro a ha hb
  simp only [List.map_cons, List.map_nil, List.mem_singleton] at hb
  exact hnotin (hb ▸ ha)

/-- **C6.**  Committing a submission removes any existing sheet with the
sanitized document name before appending the freshly rendered sheet: in the
resulting store exactly one sheet carries that name and its content is the
deterministic render of the submission alone — and committing the same
submission a second time yields exactly the same named-sheet content, with
no accumulation from the first run. -/
theorem C6_delete_then_create (strip : String → String) (store : SheetStore)
    (sub : Submission) (now : Nat) (h : (store.map Prod.fst).Nodup) :
    (commitSheet strip store sub now).filter
        (fun s => s.1 == sanitizeSheetName (some (rawWorkOrderNumber sub now)) now)
      = [(sanitizeSheetName (some (rawWorkOrderNumber sub now)) now,
          renderDoc strip sub now)]
  ∧ (commitSheet strip (commitSheet strip store sub now) sub now).filter
        (fun s => s.1 == sanitizeSheetName (some (rawWorkOrderNumber sub now)) now)
      = [(sanitizeSheetName (some (rawWorkOrderNumber sub now)) now,
          renderDoc strip sub now)] :=
  ⟨commitSheet_filter strip store sub now h,
   commitSheet_filter strip (commitSheet strip store sub now) sub now
     (commitSheet_store'_nodup strip store sub now h)⟩

/-- Witness for `C6_delete_then_create` on a store holding a stale `WO-7`
sheet. -/
theorem C6_delete_then_create_witness :
    (commitSheet id exampleStore exampleSubmission 0).filter
        (fun s => s.1 == sanitizeSheetName (some (rawWorkOrderNumber exampleSubmission 0)) 0)
      = [(sanitizeSheetName (some (rawWorkOrderNumber exampleSubmission 0)) 0,
          renderDoc id exampleSubmission 0)]
  ∧ (commitSheet id (commitSheet id exampleStore exampleSubmission 0) exampleSubmission 0).filter
        (fun s => s.1 == sanitizeSheetName (some (rawWorkOrderNumber exampleSubmission 0)) 0)
      = [(sanitizeSheetName (some (rawWorkOrderNumber exampleSubmission 0)) 0,
          renderDoc id exampleSubmission 0)] :=
  C6_delete_then_create id exampleStore exampleSubmission 0 (by decide)

end Turnovers
